import Mathlib

/-!
Shallow embedding of the licco frontend project-model and
submit-for-approval code (project_model.ts, project_submission pages,
project_details.tsx), together with proofs about it.

Conventions of the embedding:
* JavaScript strings are Lean `String`s; where an algorithm walks a
  string character by character (the diff-key splitter) we work over
  `List Char`, the character sequence of a JS string.
* A JS value that may be a number, a string or `undefined`
  (the runtime type of the numeric device fields on the wire) is the
  inductive `JSValue`; JS numbers are modelled as rationals `ℚ`.
* `undefined`/optional values are `Option`; fields typed `T | undefined`
  become `Option T`.
* In-place mutation of a record becomes a function returning the
  updated record.
* `Date` construction from an already-serialized timestamp is modelled
  as the identity on the serialized value (`jsNewDate`); network fetches
  are modelled by passing the fetched value (or the error) as an
  argument.
-/

/-- Runtime value of a wire field typed `number | string | undefined`.
JS numbers are modelled as rationals. -/
inductive JSValue where
  | undef : JSValue
  | str (s : String) : JSValue
  | num (q : ℚ) : JSValue
deriving DecidableEq

/-- Model of the JS `Number.parseFloat` builtin on decimal strings:
optional sign, integer digits, optional fractional digits.  (Inputs with
no numeric prefix, exponents and NaN are outside the embedded fragment;
no claim depends on the value produced here, only on *which* inputs are
passed through it.) -/
def parseFloat (s : String) : ℚ :=
  let l := s.toList
  let signAndRest : ℚ × List Char :=
    match l with
    | '-' :: r => (-1, r)
    | '+' :: r => (1, r)
    | _ => (1, l)
  let digitsVal : List Char → ℚ :=
    fun ds => ((ds.foldl (fun a c => a * 10 + (c.toNat - 48)) 0 : ℕ) : ℚ)
  let intPart := signAndRest.2.takeWhile Char.isDigit
  let rest := signAndRest.2.drop intPart.length
  let fracPart :=
    match rest with
    | '.' :: r => r.takeWhile Char.isDigit
    | _ => []
  signAndRest.1 * (digitsVal intPart + digitsVal fracPart / 10 ^ fracPart.length)

/-- Embeds `numberOrDefault` (project_model.ts): `undefined` and the
empty string map to the default, other strings are parsed, numbers pass
through. -/
def numberOrDefault (input : JSValue) (defaultVal : Option ℚ) : Option ℚ :=
  match input with
  | JSValue.undef => defaultVal
  | JSValue.str s => if s = "" then defaultVal else some (parseFloat s)
  | JSValue.num q => some q

/-- Re-injects a `number | undefined` result into the
`number | string | undefined` input domain of `numberOrDefault`
(in TS this is a silent subtype inclusion). -/
def jsOfOpt (v : Option ℚ) : JSValue :=
  match v with
  | none => JSValue.undef
  | some q => JSValue.num q

/-- Embeds the `DeviceState` helper class (project_model.ts). -/
structure DeviceState where
  name : String
  sortOrder : Int
  backendEnumName : String
deriving DecidableEq

def DeviceState.Conceptual : DeviceState := ⟨"Conceptual", 0, "Conceptual"⟩
def DeviceState.Planned : DeviceState := ⟨"Planned", 1, "Planned"⟩
def DeviceState.ReadyForInstallation : DeviceState :=
  ⟨"Ready For Installation", 2, "ReadyForInstallation"⟩
def DeviceState.Installed : DeviceState := ⟨"Installed", 3, "Installed"⟩
def DeviceState.Commisioned : DeviceState := ⟨"Commissioned", 4, "Commissioned"⟩
def DeviceState.Operational : DeviceState := ⟨"Operational", 5, "Operational"⟩
def DeviceState.NonOperational : DeviceState := ⟨"Non-operational", 6, "NonOperational"⟩
def DeviceState.Decommissioned : DeviceState := ⟨"De-commissioned", 7, "Decommissioned"⟩
def DeviceState.Removed : DeviceState := ⟨"Removed", 8, "Removed"⟩
def DeviceState.UnknownState : DeviceState := ⟨"Unknown", -1, "Unknown"⟩

def DeviceState.allStates : List DeviceState :=
  [DeviceState.Conceptual, DeviceState.Planned, DeviceState.ReadyForInstallation,
   DeviceState.Installed, DeviceState.Commisioned, DeviceState.Operational,
   DeviceState.NonOperational, DeviceState.Decommissioned, DeviceState.Removed]

/-- Embeds `DeviceState.fromString`: first state whose display name or
backend enum name matches, else the Unknown sentinel. -/
def DeviceState.fromString (state : String) : DeviceState :=
  match DeviceState.allStates.find? (fun s => s.name == state || s.backendEnumName == state) with
  | some s => s
  | none => DeviceState.UnknownState

/-- Embeds `ProjectFFT` (the nested wire identity of a device). -/
structure ProjectFFT where
  _id : String
  fc : String
  fg : String
deriving DecidableEq

/-- The shared device fields as they arrive on the wire
(`deviceDetailFields` in project_model.ts, at its runtime type: the
numeric fields may arrive as numbers, as strings, or be absent; the
discussion thread, whose entries only undergo a `Date` conversion,
is outside the embedded fragment). -/
structure deviceDetailFieldsWire where
  tc_part_no : String
  comments : String
  state : String
  nom_ang_x : JSValue
  nom_ang_y : JSValue
  nom_ang_z : JSValue
  nom_dim_x : JSValue
  nom_dim_y : JSValue
  nom_dim_z : JSValue
  nom_loc_x : JSValue
  nom_loc_y : JSValue
  nom_loc_z : JSValue
  ray_trace : JSValue
deriving DecidableEq

/-- The shared device fields after `transformProjectDeviceDetails`:
numeric fields are `number | undefined`. -/
structure deviceDetailFields where
  tc_part_no : String
  comments : String
  state : String
  nom_ang_x : Option ℚ
  nom_ang_y : Option ℚ
  nom_ang_z : Option ℚ
  nom_dim_x : Option ℚ
  nom_dim_y : Option ℚ
  nom_dim_z : Option ℚ
  nom_loc_x : Option ℚ
  nom_loc_y : Option ℚ
  nom_loc_z : Option ℚ
  ray_trace : Option ℚ
deriving DecidableEq

/-- Embeds `ProjectDeviceDetailsBackend`: the wire record with its
nested fft identity. -/
structure ProjectDeviceDetailsBackend extends deviceDetailFieldsWire where
  fft : ProjectFFT
deriving DecidableEq

/-- Embeds `ProjectDeviceDetails`: the flattened frontend record. -/
structure ProjectDeviceDetails extends deviceDetailFields where
  id : String
  fc : String
  fg : String
deriving DecidableEq

/-- The field names of `deviceDetailFields` addressed by key
(the string-indexed access `d[k]` of the TS code). -/
inductive DeviceFieldKey where
  | tc_part_no | comments | state
  | nom_ang_x | nom_ang_y | nom_ang_z
  | nom_dim_x | nom_dim_y | nom_dim_z
  | nom_loc_x | nom_loc_y | nom_loc_z
  | ray_trace
deriving DecidableEq

/-- Embeds `ProjectDevicePositionKeys` (project_model.ts). -/
def ProjectDevicePositionKeys : List DeviceFieldKey :=
  [DeviceFieldKey.nom_ang_x, DeviceFieldKey.nom_ang_y, DeviceFieldKey.nom_ang_z,
   DeviceFieldKey.nom_dim_x, DeviceFieldKey.nom_dim_y, DeviceFieldKey.nom_dim_z,
   DeviceFieldKey.nom_loc_x, DeviceFieldKey.nom_loc_y, DeviceFieldKey.nom_loc_z]

/-- Embeds `ProjectDeviceDetailsNumericKeys` (project_model.ts). -/
def ProjectDeviceDetailsNumericKeys : List DeviceFieldKey :=
  ProjectDevicePositionKeys ++ [DeviceFieldKey.ray_trace]

/-- Keyed access `d[k]` on a wire record. -/
def deviceDetailFieldsWire.get (d : deviceDetailFieldsWire) : DeviceFieldKey → JSValue
  | DeviceFieldKey.tc_part_no => JSValue.str d.tc_part_no
  | DeviceFieldKey.comments => JSValue.str d.comments
  | DeviceFieldKey.state => JSValue.str d.state
  | DeviceFieldKey.nom_ang_x => d.nom_ang_x
  | DeviceFieldKey.nom_ang_y => d.nom_ang_y
  | DeviceFieldKey.nom_ang_z => d.nom_ang_z
  | DeviceFieldKey.nom_dim_x => d.nom_dim_x
  | DeviceFieldKey.nom_dim_y => d.nom_dim_y
  | DeviceFieldKey.nom_dim_z => d.nom_dim_z
  | DeviceFieldKey.nom_loc_x => d.nom_loc_x
  | DeviceFieldKey.nom_loc_y => d.nom_loc_y
  | DeviceFieldKey.nom_loc_z => d.nom_loc_z
  | DeviceFieldKey.ray_trace => d.ray_trace

/-- Keyed access `d[k]` on a transformed record, as the JS runtime value
it holds (`undefined` for an absent numeric field). -/
def deviceDetailFields.get (d : deviceDetailFields) : DeviceFieldKey → JSValue
  | DeviceFieldKey.tc_part_no => JSValue.str d.tc_part_no
  | DeviceFieldKey.comments => JSValue.str d.comments
  | DeviceFieldKey.state => JSValue.str d.state
  | DeviceFieldKey.nom_ang_x => jsOfOpt d.nom_ang_x
  | DeviceFieldKey.nom_ang_y => jsOfOpt d.nom_ang_y
  | DeviceFieldKey.nom_ang_z => jsOfOpt d.nom_ang_z
  | DeviceFieldKey.nom_dim_x => jsOfOpt d.nom_dim_x
  | DeviceFieldKey.nom_dim_y => jsOfOpt d.nom_dim_y
  | DeviceFieldKey.nom_dim_z => jsOfOpt d.nom_dim_z
  | DeviceFieldKey.nom_loc_x => jsOfOpt d.nom_loc_x
  | DeviceFieldKey.nom_loc_y => jsOfOpt d.nom_loc_y
  | DeviceFieldKey.nom_loc_z => jsOfOpt d.nom_loc_z
  | DeviceFieldKey.ray_trace => jsOfOpt d.ray_trace

/-- Embeds `transformProjectDeviceDetails`: the state string is mapped
through `DeviceState.fromString`, and every key of
`ProjectDeviceDetailsNumericKeys` is mapped through
`numberOrDefault (..) undefined`.  (The in-place mutation of the TS code
becomes construction of the updated record; the discussion-thread date
conversion is outside the embedded fragment.) -/
def transformProjectDeviceDetails (device : deviceDetailFieldsWire) : deviceDetailFields :=
  { tc_part_no := device.tc_part_no
    comments := device.comments
    state := (DeviceState.fromString device.state).name
    nom_ang_x := numberOrDefault device.nom_ang_x none
    nom_ang_y := numberOrDefault device.nom_ang_y none
    nom_ang_z := numberOrDefault device.nom_ang_z none
    nom_dim_x := numberOrDefault device.nom_dim_x none
    nom_dim_y := numberOrDefault device.nom_dim_y none
    nom_dim_z := numberOrDefault device.nom_dim_z none
    nom_loc_x := numberOrDefault device.nom_loc_x none
    nom_loc_y := numberOrDefault device.nom_loc_y none
    nom_loc_z := numberOrDefault device.nom_loc_z none
    ray_trace := numberOrDefault device.ray_trace none }

/-- Embeds `deviceDetailsBackendToFrontend`: drop the nested `fft`
field, flatten its identity into `id`/`fc`/`fg`, and transform the
remaining fields. -/
def deviceDetailsBackendToFrontend (details : ProjectDeviceDetailsBackend) : ProjectDeviceDetails :=
  { todeviceDetailFields := transformProjectDeviceDetails details.todeviceDetailFieldsWire
    id := details.fft._id
    fc := details.fft.fc
    fg := details.fft.fg }

/-- The serialization used in `syncDeviceUserChanges`:
`JSON.stringify(changes, (k, v) => v === undefined ? '' : v)` — the
replacer turns `undefined` field values into the empty string, every
other value is serialized as itself. -/
def serializeValue (v : JSValue) : JSValue :=
  match v with
  | JSValue.undef => JSValue.str ""
  | v => v

/-- One field of the round trip: deserialize the wire record with
`deviceDetailsBackendToFrontend`, then serialize the field the way
`syncDeviceUserChanges` does. -/
def roundTripField (r : ProjectDeviceDetailsBackend) (k : DeviceFieldKey) : JSValue :=
  serializeValue ((deviceDetailsBackendToFrontend r).todeviceDetailFields.get k)

/-- The project status union type `"development" | "submitted" | "approved"`. -/
inductive ProjectStatus where
  | development | submitted | approved
deriving DecidableEq

/-- Embeds `ProjectInfo` (project_model.ts).  Date-valued fields keep
their serialized wire value (see `jsNewDate`); `notes` is optional on
the wire (`transformProjectForFrontendUse` defaults it). -/
structure ProjectInfo where
  _id : String
  name : String
  description : String
  owner : String
  editors : List String
  creation_time : String
  edit_time : Option String
  status : ProjectStatus
  approvers : Option (List String)
  approved_by : Option (List String)
  approved_time : Option String
  submitted_time : Option String
  submitter : Option String
  notes : Option (List String)
deriving DecidableEq

/-- Embeds `isProjectSubmitted`: `project?.status === "submitted"`. -/
def isProjectSubmitted (project : Option ProjectInfo) : Bool :=
  match project with
  | some p => p.status == ProjectStatus.submitted
  | none => false

/-- Embeds `isProjectApproved`: `project?.status === "approved"`. -/
def isProjectApproved (project : Option ProjectInfo) : Bool :=
  match project with
  | some p => p.status == ProjectStatus.approved
  | none => false

/-- Embeds `isProjectInDevelopment`: `project?.status === "development"`. -/
def isProjectInDevelopment (project : Option ProjectInfo) : Bool :=
  match project with
  | some p => p.status == ProjectStatus.development
  | none => false

/-- Embeds `isUserAProjectApprover`: for a submitted project, the user
is an approver when the approver list contains the username or the
username is the empty string (`project.approvers?.includes(username)`
is falsy when `approvers` is absent). -/
def isUserAProjectApprover (project : ProjectInfo) (username : String) : Bool :=
  if isProjectSubmitted (some project) then
    (match project.approvers with
     | some l => l.contains username
     | none => false) || username == ""
  else
    false

def MASTER_PROJECT_NAME : String := "LCLS Machine Configuration Database"

/-- JS `new Date(t)` on an already-serialized timestamp, modelled as the
identity on the serialized value (timestamp parsing is outside the
embedded fragment). -/
def jsNewDate (t : String) : String := t

/-- Embeds `transformProjectForFrontendUse`: re-wraps the date fields
and defaults an absent `notes` to the empty list. -/
def transformProjectForFrontendUse (project : ProjectInfo) : ProjectInfo :=
  { project with
    creation_time := jsNewDate project.creation_time
    edit_time := project.edit_time.map jsNewDate
    submitted_time := project.submitted_time.map jsNewDate
    approved_time := project.approved_time.map jsNewDate
    notes := match project.notes with
             | none => some []
             | some ns => some ns }

/-- Embeds the body of `fetchAllProjectsInfo` applied to the fetched
project list: a project named `MASTER_PROJECT_NAME` is kept only when
approved, every other project is kept; the kept projects are then
transformed for frontend use. -/
def fetchAllProjectsInfo (projects : List ProjectInfo) : List ProjectInfo :=
  let pArr := projects.filter
    (fun p => p.name != MASTER_PROJECT_NAME || isProjectApproved (some p))
  pArr.map transformProjectForFrontendUse

/-- Embeds the body of `fetchProjectApprovers` applied to the fetched
approver list: when a project owner was supplied (and is truthy, i.e.
non-empty), entries equal to the owner are filtered out. -/
def fetchProjectApprovers (approvers : List String) (projectOwner : Option String) : List String :=
  match projectOwner with
  | some owner =>
      if owner != "" then approvers.filter (fun username => username != owner)
      else approvers
  | none => approvers

/-- The diff-with-master result consumed by the submission page
(`ProjectFftDiff`).  Only the project of the `a` side is embedded; the
device-classification lists of the diff are not used by the claims.
The `!diff?.a` falsy-check of the TS code makes the `a` side optional. -/
structure ProjectFftDiff where
  a : Option ProjectInfo
deriving DecidableEq

/-- Embeds `userCanSubmitTheProject` (project_submission page): false
without diff data, true when the logged-in user owns the project or is
one of its editors. -/
def userCanSubmitTheProject (diff : Option ProjectFftDiff) (loggedInUser : String) : Bool :=
  match diff with
  | none => false
  | some d =>
      match d.a with
      | none => false
      | some a =>
          if a.owner == loggedInUser then true
          else if a.editors.contains loggedInUser then true
          else false

/-- The POST body built by `submitForApproval` (project_model.ts). -/
structure SubmitForApprovalRequest where
  approvers : List String
  approve_until : Int
deriving DecidableEq

/-- Embeds `submitForApproval` (project_model.ts) up to the network
call: the request body it posts (`toUnixSeconds` is modelled as the
timestamp value itself). -/
def submitForApproval (projectId : String) (approvers : List String)
    (approveUntil : Option Int) : String × SubmitForApprovalRequest :=
  (projectId,
   { approvers := approvers
     approve_until := match approveUntil with
                      | some d => d
                      | none => 0 })

/-- The `disabled` expression of the Submit-for-Approval button:
`selectedApprovers.length == 0`. -/
def submitButtonDisabled (selectedApprovers : List String) : Bool :=
  selectedApprovers.length == 0

/-- Embeds `submitButtonClicked` (project_submission page) up to the
network call: no-op without a loaded project, otherwise the
`submitForApproval` request that is posted. -/
def submitButtonClicked (project : Option ProjectInfo) (projectId : String)
    (selectedApprovers : List String) : Option (String × SubmitForApprovalRequest) :=
  match project with
  | none => none
  | some _ => some (submitForApproval projectId selectedApprovers none)

/-- Models the UI gating of the submission page: the
Submit-for-Approval button is rendered only for a project in
development, and a click reaches `submitButtonClicked` only while the
button is not disabled. -/
def submitForApprovalSent (project : Option ProjectInfo) (projectId : String)
    (selectedApprovers : List String) : Option (String × SubmitForApprovalRequest) :=
  if isProjectInDevelopment project && !submitButtonDisabled selectedApprovers then
    submitButtonClicked project projectId selectedApprovers
  else
    none

/-- Embeds `JsonErrorMsg` (utils/fetching): the structured backend
error handed to `.catch`. -/
structure JsonErrorMsg where
  error : String
deriving DecidableEq

/-- The component state touched by `loadFFTData`
(project_details.tsx). -/
structure ProjectPageState where
  isLoading : Bool
  fftDataLoadingError : String
  fftData : List ProjectDeviceDetails
deriving DecidableEq

/-- The state updates `loadFFTData` performs before the fetch resolves:
`setIsLoading(true); setFftDataLoadingError('')`. -/
def loadFFTDataStart (s : ProjectPageState) : ProjectPageState :=
  { s with isLoading := true, fftDataLoadingError := "" }

/-- The state updates `loadFFTData` performs once the fetch resolves:
on success the device list is replaced; on failure the error message is
set and the device list is reset to `[]`; either way the loading flag
is cleared (`finally`). -/
def loadFFTDataResolve (s : ProjectPageState)
    (result : Except JsonErrorMsg (List ProjectDeviceDetails)) : ProjectPageState :=
  match result with
  | Except.ok devices =>
      { s with fftData := devices, isLoading := false }
  | Except.error e =>
      { s with fftData := []
               fftDataLoadingError := "Failed to load device data: " ++ e.error
               isLoading := false }

/-- Embeds `loadFFTData` (project_details.tsx) as its net effect on the
component state, with the fetch outcome passed as an argument. -/
def loadFFTData (s : ProjectPageState)
    (result : Except JsonErrorMsg (List ProjectDeviceDetails)) : ProjectPageState :=
  loadFFTDataResolve (loadFFTDataStart s) result

/-- Prepend a character to the first piece of a split result (the
recursive step of the JS string splitter on a non-separator head). -/
def consHead (c : Char) : List (List Char) → List (List Char)
  | [] => [[c]]
  | r :: rs => (c :: r) :: rs

/-- Model of the JS `String.prototype.split` with a one-character
separator and no limit, on the character sequence of the string:
`"".split(sep)` is `[""]`, and each occurrence of the separator starts
a new piece. -/
def jsSplit (sep : Char) : List Char → List (List Char)
  | [] => [[]]
  | c :: cs =>
      if c = sep then [] :: jsSplit sep cs
      else consHead c (jsSplit sep cs)

/-- Model of the JS `Array.prototype.join` with a one-character
separator, on character sequences. -/
def jsJoin (sep : Char) : List (List Char) → List Char
  | [] => []
  | [x] => x
  | x :: y :: ys => x ++ sep :: jsJoin sep (y :: ys)

/-- The error message thrown by `parseFftFieldsFromDiff`. -/
def invalidDiffKeyMsg (key : List Char) : String :=
  "Invalid diff key " ++ String.mk key ++
    ": diff key should consist of \"<fft_id>.<key>\""

/-- Embeds `parseFftFieldsFromDiff` (project_model.ts), on the
character sequence of the diff wire key: split on `"."`, take the first
piece as the device id, re-join the remaining pieces with `"."` as the
field name, and throw when the field name is empty (JS falsy).  The
thrown `Error` is the `Except.error` case.  (`split` never returns an
empty array, so the first match arm is unreachable.) -/
def parseFftFieldsFromDiff (key : List Char) : Except String (List Char × List Char) :=
  match jsSplit '.' key with
  | [] => Except.error (invalidDiffKeyMsg key)
  | idPart :: rest =>
      let nameOfField := jsJoin '.' rest
      if nameOfField = [] then Except.error (invalidDiffKeyMsg key)
      else Except.ok (idPart, nameOfField)

lemma consHead_ne_nil (c : Char) (ll : List (List Char)) : consHead c ll ≠ [] := by
  cases ll <;> simp [consHead]

lemma jsSplit_ne_nil (sep : Char) (l : List Char) : jsSplit sep l ≠ [] := by
  induction l with
  | nil => simp [jsSplit]
  | cons c cs ih =>
      by_cases hc : c = sep
      · simp [jsSplit, hc]
      · simpa [jsSplit, hc] using consHead_ne_nil c (jsSplit sep cs)

lemma jsJoin_jsSplit (sep : Char) (l : List Char) : jsJoin sep (jsSplit sep l) = l := by
  induction l with
  | nil => rfl
  | cons c cs ih =>
      by_cases hc : c = sep
      · obtain ⟨r, rs, hrs⟩ := List.exists_cons_of_ne_nil (jsSplit_ne_nil sep cs)
        subst hc
        rw [jsSplit, if_pos rfl, hrs, jsJoin]
        rw [hrs] at ih
        simpa using ih
      · obtain ⟨r, rs, hrs⟩ := List.exists_cons_of_ne_nil (jsSplit_ne_nil sep cs)
        rw [jsSplit, if_neg hc, hrs, consHead]
        rw [hrs] at ih
        cases rs with
        | nil => simpa [jsJoin] using congrArg (c :: ·) ih
        | cons s ss =>
            rw [jsJoin] at ih ⊢
            simpa using congrArg (c :: ·) ih

lemma jsSplit_no_sep (sep : Char) (l : List Char) (h : sep ∉ l) :
    jsSplit sep l = [l] := by
  induction l with
  | nil => rfl
  | cons c cs ih =>
      have hc : ¬ c = sep := fun e => h (e ▸ List.mem_cons_self c cs)
      have hcs : sep ∉ cs := fun m => h (List.mem_cons_of_mem c m)
      rw [jsSplit, if_neg hc, ih hcs, consHead]

lemma jsSplit_append (sep : Char) (pre rest : List Char) (h : sep ∉ pre) :
    jsSplit sep (pre ++ sep :: rest) = pre :: jsSplit sep rest := by
  induction pre with
  | nil => simp [jsSplit]
  | cons c cs ih =>
      have hc : ¬ c = sep := fun e => h (e ▸ List.mem_cons_self c cs)
      have hcs : sep ∉ cs := fun m => h (List.mem_cons_of_mem c m)
      rw [List.cons_append, jsSplit, if_neg hc, ih hcs, consHead]

/-- How `numberOrDefault (..) undefined` treats each shape of runtime
input: absent and empty-string inputs give `undefined` (never `0`),
non-empty strings are parsed, numbers pass through. -/
lemma numberOrDefault_none_spec (v : JSValue) :
    numberOrDefault v none =
      match v with
      | JSValue.undef => none
      | JSValue.str s => if s = "" then none else some (parseFloat s)
      | JSValue.num q => some q := by
  cases v <;> rfl

/-- For every numeric key, the transformed record holds the
`numberOrDefault`-normalized value of the wire field. -/
lemma get_transformProjectDeviceDetails (d : deviceDetailFieldsWire) (k : DeviceFieldKey)
    (hk : k ∈ ProjectDeviceDetailsNumericKeys) :
    (transformProjectDeviceDetails d).get k = jsOfOpt (numberOrDefault (d.get k) none) := by
  cases k <;>
    first
      | rfl
      | simp [ProjectDeviceDetailsNumericKeys, ProjectDevicePositionKeys] at hk

/-- `transformProjectForFrontendUse` does not touch the name. -/
lemma transform_name (p : ProjectInfo) :
    (transformProjectForFrontendUse p).name = p.name := rfl

/-- `transformProjectForFrontendUse` does not touch the status. -/
lemma transform_status (p : ProjectInfo) :
    (transformProjectForFrontendUse p).status = p.status := rfl

/-- C1: for every project and username, `isUserAProjectApprover` is
true iff the project's status is `submitted` and the username is a
member of the project's approver list or is the empty string; in
particular a project in `development` admits no approver, and on a
submitted project every member of the approver list is an approver. -/
theorem isUserAProjectApprover_spec (p : ProjectInfo) (u : String) :
    (isUserAProjectApprover p u = true ↔
      (p.status = ProjectStatus.submitted ∧
        ((∃ l, p.approvers = some l ∧ u ∈ l) ∨ u = ""))) ∧
    (p.status = ProjectStatus.development → isUserAProjectApprover p u = false) ∧
    (p.status = ProjectStatus.submitted → (∃ l, p.approvers = some l ∧ u ∈ l) →
      isUserAProjectApprover p u = true) := by
  have hmain : isUserAProjectApprover p u = true ↔
      (p.status = ProjectStatus.submitted ∧
        ((∃ l, p.approvers = some l ∧ u ∈ l) ∨ u = "")) := by
    unfold isUserAProjectApprover isProjectSubmitted
    rcases hs : p.status <;> rcases ha : p.approvers with _ | l <;>
      simp [hs, ha, List.elem_iff]
  refine ⟨hmain, ?_, ?_⟩
  · intro hdev
    cases hval : isUserAProjectApprover p u
    · rfl
    · have := hmain.mp hval
      rw [hdev] at this
      exact absurd this.1 (by simp)
  · intro hsub hmem
    exact hmain.mpr ⟨hsub, Or.inl hmem⟩

/-- A concrete project used by the witnesses below: owned by `"bob"`,
edited by `"eve"`, in development. -/
def sampleProject : ProjectInfo :=
  { _id := "p1", name := "proj", description := "", owner := "bob",
    editors := ["eve"], creation_time := "t0", edit_time := none,
    status := ProjectStatus.development, approvers := none,
    approved_by := none, approved_time := none, submitted_time := none,
    submitter := none, notes := none }

/-- A concrete submitted project with approver list `["ann"]`. -/
def sampleSubmittedProject : ProjectInfo :=
  { sampleProject with status := ProjectStatus.submitted, approvers := some ["ann"] }

/-- C1 witness: on a concrete submitted project with approver list
`["ann"]`, the username `"ann"` is an approver. -/
theorem isUserAProjectApprover_spec_witness :
    isUserAProjectApprover sampleSubmittedProject "ann" = true :=
  (isUserAProjectApprover_spec sampleSubmittedProject "ann").2.2 rfl
    ⟨["ann"], rfl, by decide⟩

/-- C8: normalization with default `undefined` is idempotent — feeding
the result of `numberOrDefault (..) undefined` (re-injected into the
input domain) back into it returns the same value. -/
theorem numberOrDefault_idempotent (v : JSValue) :
    numberOrDefault (jsOfOpt (numberOrDefault v none)) none = numberOrDefault v none := by
  cases v with
  | undef => rfl
  | num q => rfl
  | str s =>
      by_cases hs : s = "" <;> simp [numberOrDefault, jsOfOpt, hs]

/-- C10: with a non-empty project owner supplied, `fetchProjectApprovers`
keeps exactly the backend entries different from the owner (so the
owner never appears in the result); with no owner supplied the backend
list is returned unchanged. -/
theorem fetchProjectApprovers_spec (l : List String) (owner : String) (h : owner ≠ "") :
    (∀ u, u ∈ fetchProjectApprovers l (some owner) ↔ (u ∈ l ∧ u ≠ owner)) ∧
    owner ∉ fetchProjectApprovers l (some owner) ∧
    fetchProjectApprovers l none = l := by
  have hmem : ∀ u, u ∈ fetchProjectApprovers l (some owner) ↔ (u ∈ l ∧ u ≠ owner) := by
    intro u
    simp [fetchProjectApprovers, h, List.mem_filter]
  exact ⟨hmem, fun hc => ((hmem owner).mp hc).2 rfl, rfl⟩

/-- C10 witness: filtering `["ann", "bob", "ann"]` with owner `"ann"`. -/
theorem fetchProjectApprovers_spec_witness :
    ("bob" ∈ fetchProjectApprovers ["ann", "bob", "ann"] (some "ann") ↔
      ("bob" ∈ ["ann", "bob", "ann"] ∧ "bob" ≠ "ann")) ∧
    "ann" ∉ fetchProjectApprovers ["ann", "bob", "ann"] (some "ann") :=
  ⟨(fetchProjectApprovers_spec ["ann", "bob", "ann"] "ann" (by decide)).1 "bob",
   (fetchProjectApprovers_spec ["ann", "bob", "ann"] "ann" (by decide)).2.1⟩

/-- C6: the submit action is offered iff the logged-in user is the
project's owner or one of its editors — `userCanSubmitTheProject` is
true exactly then, and is false whenever the diff (and so the project)
is not loaded. -/
theorem userCanSubmitTheProject_spec (d : ProjectFftDiff) (p : ProjectInfo) (u : String)
    (ha : d.a = some p) :
    (userCanSubmitTheProject (some d) u = true ↔ (p.owner = u ∨ u ∈ p.editors)) ∧
    userCanSubmitTheProject none u = false := by
  constructor
  · rw [show userCanSubmitTheProject (some d) u =
        (match d.a with
         | none => false
         | some a =>
             if (a.owner == u) = true then true
             else if a.editors.contains u = true then true else false) from rfl, ha]
    by_cases ho : p.owner = u
    · simp [ho]
    · by_cases he : u ∈ p.editors
      · simp [he, List.elem_iff.mpr he]
      · have hc : p.editors.contains u = false := by
          simpa using fun m => he (List.elem_iff.mp m)
        simp [ho, he, hc]
  · rfl

/-- C6 witness: for the concrete project owned by `"bob"` with editor
`"eve"`, the editor may submit. -/
theorem userCanSubmitTheProject_spec_witness :
    userCanSubmitTheProject (some { a := some sampleProject }) "eve" = true :=
  (userCanSubmitTheProject_spec { a := some sampleProject } sampleProject "eve"
    rfl).1.mpr (Or.inr (by decide))

/-- C7: the Submit-for-Approval button is disabled exactly when the
selected approver list is empty; with an empty list the click is
rejected client-side (no request is produced), and every request that
is produced carries a non-empty approver list. -/
theorem submitForApproval_clientGate (project : Option ProjectInfo) (pid : String)
    (approvers : List String) :
    (submitButtonDisabled approvers = true ↔ approvers.length = 0) ∧
    (approvers = [] → submitForApprovalSent project pid approvers = none) ∧
    (∀ req, submitForApprovalSent project pid approvers = some req →
      req.2.approvers ≠ []) := by
  refine ⟨by simp [submitButtonDisabled], ?_, ?_⟩
  · intro he
    subst he
    simp [submitForApprovalSent, submitButtonDisabled]
  · intro req hreq
    by_cases hd : submitButtonDisabled approvers
    · simp [submitForApprovalSent, hd] at hreq
    · have hne : approvers ≠ [] := by
        intro he
        exact hd (by simp [he, submitButtonDisabled])
      unfold submitForApprovalSent at hreq
      split at hreq
      · cases project with
        | none => simp [submitButtonClicked] at hreq
        | some p =>
            simp only [submitButtonClicked, Option.some.injEq] at hreq
            rw [← hreq]
            simpa [submitForApproval] using hne
      · exact absurd hreq (by simp)

/-- C7 witness: a development project with one selected approver does
produce a request, and that request's approver list is non-empty. -/
theorem submitForApproval_clientGate_witness :
    ("ann" :: []) ≠ ([] : List String) :=
  (submitForApproval_clientGate (some sampleProject) "p1" ["ann"]).2.2
    ("p1", { approvers := ["ann"], approve_until := 0 }) rfl

/-- C2: `parseFftFieldsFromDiff` splits on the first `.` only — for a
key `pre ++ "." ++ rest` with no dot in `pre`, the id is `pre` and the
field name is the whole remainder `rest` (dots included), with an error
exactly when that remainder is empty; a key without any dot is an
error; `"abc123.nom_loc_x"` parses to `(abc123, nom_loc_x)` and
`"abc123.fft.xyz"` to `(abc123, fft.xyz)`. -/
theorem parseFftFieldsFromDiff_spec (pre rest key : List Char)
    (hpre : ('.' : Char) ∉ pre) (hkey : ('.' : Char) ∉ key) :
    (parseFftFieldsFromDiff (pre ++ '.' :: rest) =
      if rest = [] then Except.error (invalidDiffKeyMsg (pre ++ '.' :: rest))
      else Except.ok (pre, rest)) ∧
    parseFftFieldsFromDiff key = Except.error (invalidDiffKeyMsg key) ∧
    parseFftFieldsFromDiff (String.toList "abc123.nom_loc_x") =
      Except.ok (String.toList "abc123", String.toList "nom_loc_x") ∧
    parseFftFieldsFromDiff (String.toList "abc123.fft.xyz") =
      Except.ok (String.toList "abc123", String.toList "fft.xyz") := by
  refine ⟨?_, ?_, rfl, rfl⟩
  · rw [parseFftFieldsFromDiff, jsSplit_append '.' pre rest hpre]
    simp only [jsJoin_jsSplit]
  · rw [parseFftFieldsFromDiff, jsSplit_no_sep '.' key hkey]
    simp [jsJoin]

/-- C2 witness: splitting the concrete key `"abc.fft.xyz"` at its first
dot. -/
theorem parseFftFieldsFromDiff_spec_witness :
    parseFftFieldsFromDiff (String.toList "abc" ++ '.' :: String.toList "fft.xyz") =
      Except.ok (String.toList "abc", String.toList "fft.xyz") := by
  have h := (parseFftFieldsFromDiff_spec (String.toList "abc") (String.toList "fft.xyz")
    (String.toList "zzz") (by decide) (by decide)).1
  simpa using h

/-- C3: after `transformProjectDeviceDetails`, every numeric field that
arrived as the empty string is `undefined` (and in particular not `0`),
every non-empty numeric string is parsed to its numeric value, and
every field that arrived as a number is unchanged. -/
theorem transformProjectDeviceDetails_numeric (d : deviceDetailFieldsWire)
    (k : DeviceFieldKey) (hk : k ∈ ProjectDeviceDetailsNumericKeys) :
    (d.get k = JSValue.str "" →
      (transformProjectDeviceDetails d).get k = JSValue.undef ∧
      (transformProjectDeviceDetails d).get k ≠ JSValue.num 0) ∧
    (∀ s, s ≠ "" → d.get k = JSValue.str s →
      (transformProjectDeviceDetails d).get k = JSValue.num (parseFloat s)) ∧
    (∀ q, d.get k = JSValue.num q →
      (transformProjectDeviceDetails d).get k = JSValue.num q) := by
  have hget := get_transformProjectDeviceDetails d k hk
  refine ⟨?_, ?_, ?_⟩
  · intro he
    rw [hget, he]
    exact ⟨rfl, by simp [numberOrDefault, jsOfOpt]⟩
  · intro s hs he
    rw [hget, he]
    simp [numberOrDefault, jsOfOpt, hs]
  · intro q he
    rw [hget, he]
    rfl

/-- A concrete wire device record with an empty-string `nom_loc_x`. -/
def sampleWireDevice : deviceDetailFieldsWire :=
  { tc_part_no := "PN-1", comments := "", state := "Conceptual",
    nom_ang_x := JSValue.num 1, nom_ang_y := JSValue.num 2, nom_ang_z := JSValue.num 3,
    nom_dim_x := JSValue.num 4, nom_dim_y := JSValue.num 5, nom_dim_z := JSValue.num 6,
    nom_loc_x := JSValue.str "", nom_loc_y := JSValue.num 7, nom_loc_z := JSValue.num 8,
    ray_trace := JSValue.num 1 }

/-- C3 witness: the empty-string `nom_loc_x` of the concrete wire
record is normalized to `undefined`. -/
theorem transformProjectDeviceDetails_numeric_witness :
    sampleWireDevice.get DeviceFieldKey.nom_loc_x = JSValue.str "" ∧
    (transformProjectDeviceDetails sampleWireDevice).get DeviceFieldKey.nom_loc_x =
      JSValue.undef :=
  ⟨rfl,
   ((transformProjectDeviceDetails_numeric sampleWireDevice DeviceFieldKey.nom_loc_x
      (by decide)).1 rfl).1⟩

/-- A concrete frontend device record held in page state before a
failing fetch. -/
def sampleDevice : ProjectDeviceDetails :=
  { tc_part_no := "PN-1", comments := "", state := "Conceptual",
    nom_ang_x := none, nom_ang_y := none, nom_ang_z := none,
    nom_dim_x := none, nom_dim_y := none, nom_dim_z := none,
    nom_loc_x := some 1, nom_loc_y := none, nom_loc_z := none,
    ray_trace := none, id := "d1", fc := "fc1", fg := "fg1" }

/-- A concrete page state with one previously loaded device. -/
def samplePageState : ProjectPageState :=
  { isLoading := false, fftDataLoadingError := "", fftData := [sampleDevice] }

/-- C4 counterexample: after a failed fetch, the previously loaded
device list is NOT left untouched — `loadFFTData` resets it to `[]`. -/
theorem loadFFTData_error_clears_prior_state :
    (loadFFTData samplePageState (Except.error ⟨"network down"⟩)).fftData ≠
      samplePageState.fftData := by
  decide

/-- C4 amended: on a failed fetch, `loadFFTData` surfaces the error
message, resets the device list to the empty list (discarding the
previously loaded devices), and clears the loading flag. -/
theorem loadFFTData_error_spec (s : ProjectPageState) (e : JsonErrorMsg) :
    (loadFFTData s (Except.error e)).fftDataLoadingError =
      "Failed to load device data: " ++ e.error ∧
    (loadFFTData s (Except.error e)).fftData = [] ∧
    (loadFFTData s (Except.error e)).isLoading = false :=
  ⟨rfl, rfl, rfl⟩

/-- C5: `fetchAllProjectsInfo` includes a fetched project named
`MASTER_PROJECT_NAME` iff its status is approved, and always includes
every project with any other name. -/
theorem fetchAllProjectsInfo_master_visibility (ps : List ProjectInfo) (p : ProjectInfo)
    (hp : p ∈ ps) :
    (p.name = MASTER_PROJECT_NAME →
      (transformProjectForFrontendUse p ∈ fetchAllProjectsInfo ps ↔
        p.status = ProjectStatus.approved)) ∧
    (p.name ≠ MASTER_PROJECT_NAME →
      transformProjectForFrontendUse p ∈ fetchAllProjectsInfo ps) := by
  have hpred : ∀ q : ProjectInfo,
      (q.name != MASTER_PROJECT_NAME || isProjectApproved (some q)) = true ↔
        (q.name ≠ MASTER_PROJECT_NAME ∨ q.status = ProjectStatus.approved) := by
    intro q
    rw [Bool.or_eq_true, bne_iff_ne]
    constructor
    · rintro (hn | hb)
      · exact Or.inl hn
      · exact Or.inr (of_decide_eq_true hb)
    · rintro (hn | hs)
      · exact Or.inl hn
      · exact Or.inr (decide_eq_true hs)
  constructor
  · intro hm
    constructor
    · intro hmem
      rcases List.mem_map.1 hmem with ⟨q, hq, he⟩
      rcases List.mem_filter.1 hq with ⟨_, hqpred⟩
      have hn : q.name = p.name := by
        rw [← transform_name q, he, transform_name]
      have hs : q.status = p.status := by
        rw [← transform_status q, he, transform_status]
      rcases (hpred q).1 hqpred with hne | happ
      · exact absurd (hn.trans hm) hne
      · exact hs ▸ happ
    · intro happ
      exact List.mem_map.2
        ⟨p, List.mem_filter.2 ⟨hp, (hpred p).2 (Or.inr happ)⟩, rfl⟩
  · intro hne
    exact List.mem_map.2
      ⟨p, List.mem_filter.2 ⟨hp, (hpred p).2 (Or.inl hne)⟩, rfl⟩

/-- C5 witness: the concrete non-master project is always included in
the fetched list. -/
theorem fetchAllProjectsInfo_master_visibility_witness :
    transformProjectForFrontendUse sampleProject ∈ fetchAllProjectsInfo [sampleProject] :=
  (fetchAllProjectsInfo_master_visibility [sampleProject] sampleProject
    (by decide)).2 (by decide)

/-- A numeric wire value as expected by the backend contract: a number,
or the empty-string placeholder for an absent value. -/
def numericWireOk : JSValue → Bool
  | JSValue.undef => false
  | JSValue.str s => s == ""
  | JSValue.num _ => true

/-- A concrete wire record whose `state` uses the backend enum spelling
`"ReadyForInstallation"`. -/
def sampleBackendDevice : ProjectDeviceDetailsBackend :=
  { tc_part_no := "PN-1", comments := "a comment", state := "ReadyForInstallation",
    nom_ang_x := JSValue.num 1, nom_ang_y := JSValue.num 2, nom_ang_z := JSValue.num 3,
    nom_dim_x := JSValue.num 4, nom_dim_y := JSValue.num 5, nom_dim_z := JSValue.num 6,
    nom_loc_x := JSValue.str "", nom_loc_y := JSValue.num 7, nom_loc_z := JSValue.num 8,
    ray_trace := JSValue.num 1, fft := ⟨"id1", "fc1", "fg1"⟩ }

/-- C9 counterexample: serialize∘deserialize does not reproduce the
wire record for every field — on a record whose `state` arrives as
`"ReadyForInstallation"`, the round trip yields the display spelling
`"Ready For Installation"`. -/
theorem roundTripField_not_identity :
    ¬ ∀ k, roundTripField sampleBackendDevice k =
      sampleBackendDevice.todeviceDetailFieldsWire.get k := by
  intro h
  exact absurd (h DeviceFieldKey.state) (by decide)

/-- C9 amended: for a wire record whose numeric fields each arrive as a
number or as the empty-string placeholder, serialize∘deserialize
reproduces every numeric field exactly (empty strings round-trip to the
empty string, not to any default number) and reproduces `tc_part_no`
and `comments` byte-for-byte; the `state` field instead round-trips to
the canonical display name of its device state, which may differ from
the wire spelling. -/
theorem roundTripField_spec (r : ProjectDeviceDetailsBackend)
    (hnum : ∀ k ∈ ProjectDeviceDetailsNumericKeys,
      numericWireOk (r.todeviceDetailFieldsWire.get k) = true) :
    (∀ k ∈ ProjectDeviceDetailsNumericKeys,
      roundTripField r k = r.todeviceDetailFieldsWire.get k) ∧
    roundTripField r DeviceFieldKey.tc_part_no =
      r.todeviceDetailFieldsWire.get DeviceFieldKey.tc_part_no ∧
    roundTripField r DeviceFieldKey.comments =
      r.todeviceDetailFieldsWire.get DeviceFieldKey.comments ∧
    roundTripField r DeviceFieldKey.state =
      JSValue.str (DeviceState.fromString r.state).name := by
  refine ⟨?_, rfl, rfl, rfl⟩
  intro k hk
  have hfront : (deviceDetailsBackendToFrontend r).todeviceDetailFields =
      transformProjectDeviceDetails r.todeviceDetailFieldsWire := rfl
  rw [roundTripField, hfront, get_transformProjectDeviceDetails _ k hk]
  have hok := hnum k hk
  rcases hv : r.todeviceDetailFieldsWire.get k with _ | s | q
  · rw [hv] at hok
    exact absurd hok (by simp [numericWireOk])
  · rw [hv] at hok
    have hs : s = "" := by simpa [numericWireOk] using hok
    subst hs
    rfl
  · rfl

/-- C9 witness: on the concrete wire record, the empty-string
`nom_loc_x` round-trips to the empty string. -/
theorem roundTripField_spec_witness :
    roundTripField sampleBackendDevice DeviceFieldKey.nom_loc_x =
      sampleBackendDevice.todeviceDetailFieldsWire.get DeviceFieldKey.nom_loc_x :=
  (roundTripField_spec sampleBackendDevice (by decide)).1 DeviceFieldKey.nom_loc_x
    (by decide)

